import Mathlib

/-!
Shallow embedding of `src/schema/sync_crds.py` (golden-chart repository):
the CRD schema extraction / OpenAPI-to-JSON-Schema rewriting pipeline.

Parsed YAML/JSON values are modelled by the inductive type `Json`
(Python dicts become ordered association lists, preserving insertion
order, as Python 3.7+ dicts do; YAML mapping keys are modelled as
strings, which is what CRD bundles contain; numbers are modelled as
integers, whose arithmetic is never consulted by the code under study).

The YAML parsing step (`yaml.safe_load_all`) and the network fetch are
external collaborators: `extract_schemas` is embedded on the already
parsed document stream `List Json`, and `sync` on the same.  Python
runtime exceptions (`AttributeError` on `.get` of a non-dict,
`TypeError` on `in` / subscript / iteration over non-containers) are
modelled with `Except String`.
-/

/-- A parsed YAML/JSON value: Python's None / bool / number / str / list / dict. -/
inductive Json where
  | null : Json
  | bool (b : Bool) : Json
  | num (n : Int) : Json
  | str (s : String) : Json
  | arr (xs : List Json) : Json
  | obj (kvs : List (String × Json)) : Json
deriving Repr

/-- Python truthiness (`bool(x)`) of a parsed value. -/
def Json.truthy : Json → Bool
  | .null => false
  | .bool b => b
  | .num n => n != 0
  | .str s => s ≠ ""
  | .arr xs => !xs.isEmpty
  | .obj kvs => !kvs.isEmpty

/-- First-occurrence lookup in an ordered association list
(Python dict lookup; parsed YAML mappings have unique keys). -/
def lookupKey (kvs : List (String × Json)) (k : String) : Option Json :=
  match kvs with
  | [] => none
  | (k', v) :: rest => if k' = k then some v else lookupKey rest k

/-- Python dict assignment `d[k] = v`: replace in place if the key exists,
else append at the end. -/
def setKey (kvs : List (String × Json)) (k : String) (v : Json) :
    List (String × Json) :=
  match kvs with
  | [] => [(k, v)]
  | (k', v') :: rest =>
    if k' = k then (k, v) :: rest else (k', v') :: setKey rest k v

/-- `key in d` for an object node (dict key membership). -/
def hasKey (j : Json) (k : String) : Bool :=
  match j with
  | .obj kvs => (lookupKey kvs k).isSome
  | _ => false

/-- The keys of an object node, in order; `[]` for non-objects. -/
def objKeys : Json → List String
  | .obj kvs => kvs.map Prod.fst
  | _ => []

/-- Key lookup on an object node; `none` for non-objects. -/
def objLookup (j : Json) (k : String) : Option Json :=
  match j with
  | .obj kvs => lookupKey kvs k
  | _ => none

/-- `key.startswith("x-")`: the first two characters are `x`, `-`. -/
def startsWithXDash (s : String) : Bool :=
  match s.data with
  | 'x' :: '-' :: _ => true
  | _ => false

mutual

/-- `openapi_to_jsonschema` (src/schema/sync_crds.py, lines 62-91):
recursively convert an OpenAPI v3 validation schema to a JSON Schema.
Non-dict input is returned unchanged. -/
def openapi_to_jsonschema (j : Json) : Json :=
  match j with
  | .obj kvs => .obj (rewriteEntries kvs)
  | j => j
termination_by structural j

/-- The `for key, value in openapi_schema.items()` loop of
`openapi_to_jsonschema`, building `result` in insertion order. -/
def rewriteEntries (kvs : List (String × Json)) : List (String × Json) :=
  match kvs with
  | [] => []
  | (k, v) :: rest =>
    if k = "x-kubernetes-preserve-unknown-fields" then
      (k, v) :: rewriteEntries rest
    else if startsWithXDash k then
      rewriteEntries rest
    else if k = "properties" then
      match v with
      | .obj props => (k, .obj (rewriteValues props)) :: rewriteEntries rest
      | _ => (k, v) :: rewriteEntries rest
    else if k = "additionalProperties" then
      match v with
      | .obj props => (k, openapi_to_jsonschema (.obj props)) :: rewriteEntries rest
      | _ => (k, v) :: rewriteEntries rest
    else if k = "items" then
      match v with
      | .obj props => (k, openapi_to_jsonschema (.obj props)) :: rewriteEntries rest
      | _ => (k, v) :: rewriteEntries rest
    else if k = "oneOf" ∨ k = "anyOf" ∨ k = "allOf" then
      match v with
      | .arr xs => (k, .arr (rewriteList xs)) :: rewriteEntries rest
      | _ => (k, v) :: rewriteEntries rest
    else
      (k, v) :: rewriteEntries rest
termination_by structural kvs

/-- The dict comprehension `{k: openapi_to_jsonschema(v) for k, v in value.items()}`. -/
def rewriteValues (kvs : List (String × Json)) : List (String × Json) :=
  match kvs with
  | [] => []
  | (k, v) :: rest => (k, openapi_to_jsonschema v) :: rewriteValues rest
termination_by structural kvs

/-- The list comprehension `[openapi_to_jsonschema(v) for v in value]`. -/
def rewriteList (xs : List Json) : List Json :=
  match xs with
  | [] => []
  | x :: rest => openapi_to_jsonschema x :: rewriteList rest
termination_by structural xs

end

/-- Python `str(x)`.  Exact only for the scalar values the pipeline feeds
into f-strings; the `str()` rendering of containers (never exercised by a
CRD bundle's group/kind/version fields, which are scalars) is abbreviated. -/
def pyStr : Json → String
  | .null => "None"
  | .bool true => "True"
  | .bool false => "False"
  | .num n => toString n
  | .str s => s
  | .arr _ => "<list>"
  | .obj _ => "<dict>"

/-- `str.lower()` on one string (character-wise case mapping; CRD kind
names are ASCII, for which `Char.toLower` matches Python). -/
def lowerStr (s : String) : String :=
  String.mk (s.data.map Char.toLower)

/-- Python `x.lower()`: a method of `str` only; `AttributeError` otherwise. -/
def pyLower : Json → Except String String
  | .str s => .ok (lowerStr s)
  | _ => .error "AttributeError: lower"

/-- Python `d.get(k, default)`: a method of `dict` only; `AttributeError`
when the receiver is not a dict. -/
def dictGetD (j : Json) (k : String) (dflt : Json) : Except String Json :=
  match j with
  | .obj kvs => .ok ((lookupKey kvs k).getD dflt)
  | _ => .error "AttributeError: get"

/-- Is `needle` a leading run of `hay`? (chars) -/
def charsHasInit (needle hay : List Char) : Bool :=
  match needle, hay with
  | [], _ => true
  | _ :: _, [] => false
  | a :: as, b :: bs => a = b && charsHasInit as bs

/-- Is `needle` a contiguous run somewhere inside `hay`? (chars) -/
def charsSub (needle hay : List Char) : Bool :=
  match hay with
  | [] => needle.isEmpty
  | _ :: tl => charsHasInit needle hay || charsSub needle tl

/-- Python `k in x` for a string key `k`: dict key membership, substring
test on a str, element equality on a list; `TypeError` otherwise. -/
def pyContains (j : Json) (k : String) : Except String Bool :=
  match j with
  | .obj kvs => .ok (lookupKey kvs k).isSome
  | .str s => .ok (charsSub k.data s.data)
  | .arr xs => .ok (xs.any fun x => match x with | .str s => s = k | _ => false)
  | _ => .error "TypeError: argument of type is not iterable"

/-- Python `x[k]` for a string key `k`: dict subscript (`KeyError` when
absent); `TypeError` on str/list (indices must be integers) and scalars. -/
def pySubscript (j : Json) (k : String) : Except String Json :=
  match j with
  | .obj kvs =>
    match lookupKey kvs k with
    | some v => .ok v
    | none => .error "KeyError"
  | _ => .error "TypeError: indices must be integers"

/-- Python `for x in v`: lists iterate elements, dicts iterate their keys,
strings iterate their characters; `TypeError` otherwise. -/
def pyIter : Json → Except String (List Json)
  | .arr xs => .ok xs
  | .obj kvs => .ok (kvs.map fun kv => .str kv.1)
  | .str s => .ok (s.data.map fun c => .str (String.mk [c]))
  | _ => .error "TypeError: not iterable"

/-- One extracted schema record, as appended by `extract_schemas`
(lines 138-145): `kind` has been lowercased there, `group` and `version`
are stored as read from the document. -/
structure SchemaEntry where
  group : Json
  kind : String
  version : Json
  schema : Json
deriving Repr

/-- The `json_schema` assembly of `extract_schemas` (lines 117-136): the
base dict literal, then `properties`, `required`, `type` copied from the
converted root when present (`"k" in converted` / `converted["k"]`). -/
def assembleSchema (group kind version : Json) (converted : Json) :
    Except String Json := do
  let base : List (String × Json) :=
    [("$schema", .str "http://json-schema.org/draft-07/schema#"),
     ("description",
       .str (pyStr kind ++ " (" ++ pyStr group ++ "/" ++ pyStr version ++ ")")),
     ("type", .str "object"),
     ("x-kubernetes-group-version-kind",
       .arr [.obj [("group", group), ("kind", kind), ("version", version)]])]
  let hasProps ← pyContains converted "properties"
  let s1 ←
    if hasProps then
      (pySubscript converted "properties").map (setKey base "properties")
    else pure base
  let hasReq ← pyContains converted "required"
  let s2 ←
    if hasReq then
      (pySubscript converted "required").map (setKey s1 "required")
    else pure s1
  let hasType ← pyContains converted "type"
  let s3 ←
    if hasType then
      (pySubscript converted "type").map (setKey s2 "type")
    else pure s2
  pure (.obj s3)

/-- The body of the `for ver_entry in spec.get("versions", [])` loop of
`extract_schemas` (lines 108-145): yields `[]` (skip) or one entry. -/
def processVersion (group kind : Json) (ventry : Json) :
    Except String (List SchemaEntry) := do
  let version ← dictGetD ventry "name" (.str "")
  let schemaBlock ← dictGetD ventry "schema" (.obj [])
  let openapi ← dictGetD schemaBlock "openAPIV3Schema" (.obj [])
  if !version.truthy || !openapi.truthy then
    pure []
  else do
    let converted := openapi_to_jsonschema openapi
    let js ← assembleSchema group kind version converted
    let kindLower ← pyLower kind
    pure [{ group := group, kind := kindLower, version := version, schema := js }]

/-- Sequential run of `processVersion` over the version entries, in order. -/
def processVersions (group kind : Json) (ventries : List Json) :
    Except String (List SchemaEntry) :=
  match ventries with
  | [] => .ok []
  | v :: rest => do
    let es ← processVersion group kind v
    let esr ← processVersions group kind rest
    pure (es ++ esr)

/-- The per-document body of `extract_schemas` (lines 97-145): skip checks
(`not doc`, `kind != "CustomResourceDefinition"`, missing group/kind),
then the version loop. -/
def processDoc (doc : Json) : Except String (List SchemaEntry) := do
  if !doc.truthy then
    pure []
  else do
    let kindTag ← dictGetD doc "kind" .null
    match kindTag with
    | .str s =>
      if s = "CustomResourceDefinition" then do
        let spec ← dictGetD doc "spec" (.obj [])
        let group ← dictGetD spec "group" (.str "")
        let names ← dictGetD spec "names" (.obj [])
        let kind ← dictGetD names "kind" (.str "")
        if !group.truthy || !kind.truthy then
          pure []
        else do
          let versions ← dictGetD spec "versions" (.arr [])
          let ventries ← pyIter versions
          processVersions group kind ventries
      else pure []
    | _ => pure []

/-- `extract_schemas` (lines 94-147) on the parsed document stream:
document order is preserved, results are concatenated, the first raised
exception aborts. -/
def extract_schemas (docs : List Json) : Except String (List SchemaEntry) :=
  match docs with
  | [] => .ok []
  | d :: rest => do
    let es ← processDoc d
    let esr ← extract_schemas rest
    pure (es ++ esr)

/-- JSON string escaping as in `json.dumps` (backslash, quote and newline;
other control characters do not occur in the data under study). -/
def escapeStr (s : String) : String :=
  String.join (s.data.map fun c =>
    if c = '\\' then "\\\\"
    else if c = '"' then "\\\""
    else if c = '\n' then "\\n"
    else String.mk [c])

/-- `indent`-level left padding of `json.dumps(..., indent=2)`. -/
def pad (level : Nat) : String :=
  String.mk (List.replicate (2 * level) ' ')

mutual

/-- `json.dumps(j, indent=2)` rendered at nesting depth `level`. -/
def dumps (level : Nat) (j : Json) : String :=
  match j with
  | .null => "null"
  | .bool true => "true"
  | .bool false => "false"
  | .num n => toString n
  | .str s => "\"" ++ escapeStr s ++ "\""
  | .arr [] => "[]"
  | .arr (x :: xs) =>
    "[\n" ++ String.intercalate ",\n" (dumpsList (level + 1) (x :: xs)) ++
      "\n" ++ pad level ++ "]"
  | .obj [] => "\x7b\x7d"
  | .obj (kv :: kvs) =>
    "\x7b\n" ++ String.intercalate ",\n" (dumpsEntries (level + 1) (kv :: kvs)) ++
      "\n" ++ pad level ++ "\x7d"
termination_by structural j

/-- The rendered, indented elements of a JSON array. -/
def dumpsList (level : Nat) (xs : List Json) : List String :=
  match xs with
  | [] => []
  | x :: rest => (pad level ++ dumps level x) :: dumpsList level rest
termination_by structural xs

/-- The rendered, indented `"key": value` items of a JSON object. -/
def dumpsEntries (level : Nat) (kvs : List (String × Json)) : List String :=
  match kvs with
  | [] => []
  | (k, v) :: rest =>
    (pad level ++ "\"" ++ escapeStr k ++ "\": " ++ dumps level v) ::
      dumpsEntries level rest
termination_by structural kvs

end

/-- The on-disk state: a map from file path to file content, as an
association list (insertion order immaterial; first occurrence wins). -/
abbrev FS := List (String × String)

/-- Read a file: first-occurrence lookup. -/
def fsLookup (fs : FS) (p : String) : Option String :=
  match fs with
  | [] => none
  | (p', c) :: rest => if p' = p then some c else fsLookup rest p

/-- `filepath.write_text(content)`: overwrite in place if the path exists,
else create it (directory creation is create-if-absent and is implicit in
the path map). -/
def fsWrite (fs : FS) (p c : String) : FS :=
  match fs with
  | [] => [(p, c)]
  | (p', c') :: rest =>
    if p' = p then (p, c) :: rest else (p', c') :: fsWrite rest p c

/-- The file path `output_dir / entry["group"] / f"{kind}_{version}.json"`
written by `write_schemas` for an entry with string-valued group. -/
def entryPath (outDir : String) (g : String) (e : SchemaEntry) : String :=
  outDir ++ "/" ++ g ++ "/" ++ e.kind ++ "_" ++ pyStr e.version ++ ".json"

/-- The file content written for one entry:
`json.dumps(entry["schema"], indent=2) + "\n"`. -/
def entryContent (e : SchemaEntry) : String :=
  dumps 0 e.schema ++ "\n"

/-- `write_schemas` (lines 150-158): one `write_text` per entry, in order.
`output_dir / entry["group"]` raises `TypeError` when `group` is not a
string; the filesystem reached so far is kept alongside the error. -/
def write_schemas (schemas : List SchemaEntry) (outDir : String) (fs : FS) :
    FS × Option String :=
  match schemas with
  | [] => (fs, none)
  | e :: rest =>
    match e.group with
    | .str g => write_schemas rest outDir (fsWrite fs (entryPath outDir g e) (entryContent e))
    | _ => (fs, some "TypeError: unsupported operand for path division")

/-- The observable outcome of one `sync` run: the process exit code, the
final filesystem, and the reported artifact count (`None` when the run
failed before the summary). -/
structure SyncOutcome where
  exitCode : Nat
  fs : FS
  reported : Option Nat
deriving Repr

/-- Does an `x-`-prefixed key other than the preserved one occur anywhere
in the tree, at any depth (including inside values the rewriter copies
verbatim)?  Used to state the extension-key claims. -/
def hasDroppedXKey (j : Json) : Bool :=
  match j with
  | .obj kvs => entriesHaveXKey kvs
  | .arr xs => listHasXKey xs
  | _ => false
where
  entriesHaveXKey : List (String × Json) → Bool
    | [] => false
    | (k, v) :: rest =>
      (startsWithXDash k && !(k = "x-kubernetes-preserve-unknown-fields")) ||
        hasDroppedXKey v || entriesHaveXKey rest
  listHasXKey : List Json → Bool
    | [] => false
    | x :: rest => hasDroppedXKey x || listHasXKey rest

mutual

/-- Extension-key cleanliness at every node the rewriter recurses into:
the node's own keys contain no dropped `x-` key, and the check descends
exactly where `openapi_to_jsonschema` descends (`properties` values,
dict-valued `additionalProperties`/`items`, list-valued composition
keywords); values of other keys are not inspected, mirroring the
rewriter's verbatim copy. -/
def nodeKeysOk (j : Json) : Bool :=
  match j with
  | .obj kvs => entriesKeysOk kvs
  | _ => true
termination_by structural j

/-- `nodeKeysOk` over an object's key/value entries. -/
def entriesKeysOk (kvs : List (String × Json)) : Bool :=
  match kvs with
  | [] => true
  | (k, v) :: rest =>
    (decide (k = "x-kubernetes-preserve-unknown-fields") || !startsWithXDash k) &&
      childKeysOk k v && entriesKeysOk rest
termination_by structural kvs

/-- The descent of `nodeKeysOk` below one key, following the rewriter. -/
def childKeysOk (k : String) (v : Json) : Bool :=
  if k = "properties" then
    match v with
    | .obj props => valuesKeysOk props
    | _ => true
  else if k = "additionalProperties" ∨ k = "items" then
    match v with
    | .obj props => entriesKeysOk props
    | _ => true
  else if k = "oneOf" ∨ k = "anyOf" ∨ k = "allOf" then
    match v with
    | .arr xs => listKeysOk xs
    | _ => true
  else true
termination_by structural v

/-- `nodeKeysOk` over every value of a `properties` object. -/
def valuesKeysOk (kvs : List (String × Json)) : Bool :=
  match kvs with
  | [] => true
  | (_, v) :: rest => nodeKeysOk v && valuesKeysOk rest
termination_by structural kvs

/-- `nodeKeysOk` over every element of a composition list. -/
def listKeysOk (xs : List Json) : Bool :=
  match xs with
  | [] => true
  | x :: rest => nodeKeysOk x && listKeysOk rest
termination_by structural xs

end

/-- Does the value returned by `doc.get("kind")` equal the Python string
`"CustomResourceDefinition"`?  (`None` or any non-string compares unequal.) -/
def kindTagIsCRD (t : Option Json) : Bool :=
  match t with
  | some (.str s) => s = "CustomResourceDefinition"
  | _ => false

/-- A concrete CRD document whose openAPIV3Schema root has no `type` key:
kind CustomResourceDefinition, group `example.io`, names.kind `Widget`,
one version `v1` with schema `{"description": "d"}`. -/
def c1doc : Json :=
  .obj [("kind", .str "CustomResourceDefinition"),
    ("spec", .obj [("group", .str "example.io"),
      ("names", .obj [("kind", .str "Widget")]),
      ("versions", .arr [
        .obj [("name", .str "v1"),
          ("schema", .obj [("openAPIV3Schema",
            .obj [("description", .str "d")])])]])])]

/-- The raw root schema embedded in `c1doc`. -/
def c1raw : Json := .obj [("description", .str "d")]

/-- The single schema record `extract_schemas` produces from `c1doc`. -/
def c1entry : SchemaEntry :=
  { group := .str "example.io", kind := "widget", version := .str "v1",
    schema := .obj [
      ("$schema", .str "http://json-schema.org/draft-07/schema#"),
      ("description", .str "Widget (example.io/v1)"),
      ("type", .str "object"),
      ("x-kubernetes-group-version-kind",
        .arr [.obj [("group", .str "example.io"), ("kind", .str "Widget"),
          ("version", .str "v1")]])] }

/-- The `sync` command (lines 161-191) after the external download: extract
from the parsed stream; zero schemas is `typer.Exit(code=1)` before any
write; an uncaught exception is a non-zero exit; otherwise write all
schemas and report the total count. -/
def sync (docs : List Json) (outDir : String) (fs : FS) : SyncOutcome :=
  match extract_schemas docs with
  | .error _ => { exitCode := 1, fs := fs, reported := none }
  | .ok schemas =>
    if schemas.isEmpty then
      { exitCode := 1, fs := fs, reported := none }
    else
      match write_schemas schemas outDir fs with
      | (fs2, some _) => { exitCode := 1, fs := fs2, reported := none }
      | (fs2, none) => { exitCode := 0, fs := fs2, reported := some schemas.length }

/-! ## Generic mutual induction over `Json` -/

mutual

theorem jsonRecAll {P : Json → Prop} {Q : List (String × Json) → Prop}
    {R : List Json → Prop}
    (hnull : P .null) (hbool : ∀ b, P (.bool b)) (hnum : ∀ n, P (.num n))
    (hstr : ∀ s, P (.str s)) (harr : ∀ xs, R xs → P (.arr xs))
    (hobj : ∀ kvs, Q kvs → P (.obj kvs))
    (hqnil : Q []) (hqcons : ∀ k v rest, P v → Q rest → Q ((k, v) :: rest))
    (hrnil : R []) (hrcons : ∀ x rest, P x → R rest → R (x :: rest))
    (j : Json) : P j :=
  match j with
  | .null => hnull
  | .bool b => hbool b
  | .num n => hnum n
  | .str s => hstr s
  | .arr xs => harr xs (listRecAll hnull hbool hnum hstr harr hobj hqnil hqcons hrnil hrcons xs)
  | .obj kvs => hobj kvs (entriesRecAll hnull hbool hnum hstr harr hobj hqnil hqcons hrnil hrcons kvs)
termination_by structural j

theorem entriesRecAll {P : Json → Prop} {Q : List (String × Json) → Prop}
    {R : List Json → Prop}
    (hnull : P .null) (hbool : ∀ b, P (.bool b)) (hnum : ∀ n, P (.num n))
    (hstr : ∀ s, P (.str s)) (harr : ∀ xs, R xs → P (.arr xs))
    (hobj : ∀ kvs, Q kvs → P (.obj kvs))
    (hqnil : Q []) (hqcons : ∀ k v rest, P v → Q rest → Q ((k, v) :: rest))
    (hrnil : R []) (hrcons : ∀ x rest, P x → R rest → R (x :: rest))
    (kvs : List (String × Json)) : Q kvs :=
  match kvs with
  | [] => hqnil
  | (k, v) :: rest =>
    hqcons k v rest (jsonRecAll hnull hbool hnum hstr harr hobj hqnil hqcons hrnil hrcons v)
      (entriesRecAll hnull hbool hnum hstr harr hobj hqnil hqcons hrnil hrcons rest)
termination_by structural kvs

theorem listRecAll {P : Json → Prop} {Q : List (String × Json) → Prop}
    {R : List Json → Prop}
    (hnull : P .null) (hbool : ∀ b, P (.bool b)) (hnum : ∀ n, P (.num n))
    (hstr : ∀ s, P (.str s)) (harr : ∀ xs, R xs → P (.arr xs))
    (hobj : ∀ kvs, Q kvs → P (.obj kvs))
    (hqnil : Q []) (hqcons : ∀ k v rest, P v → Q rest → Q ((k, v) :: rest))
    (hrnil : R []) (hrcons : ∀ x rest, P x → R rest → R (x :: rest))
    (xs : List Json) : R xs :=
  match xs with
  | [] => hrnil
  | x :: rest =>
    hrcons x rest (jsonRecAll hnull hbool hnum hstr harr hobj hqnil hqcons hrnil hrcons x)
      (listRecAll hnull hbool hnum hstr harr hobj hqnil hqcons hrnil hrcons rest)
termination_by structural xs

end

/-! ## Basic lemmas about the rewriter's helpers -/

theorem rewriteList_eq_map (xs : List Json) :
    rewriteList xs = xs.map openapi_to_jsonschema := by
  induction xs with
  | nil => simp [rewriteList]
  | cons x rest ih => simp [rewriteList, ih]

theorem rewriteValues_eq_map (kvs : List (String × Json)) :
    rewriteValues kvs = kvs.map fun kv => (kv.1, openapi_to_jsonschema kv.2) := by
  induction kvs with
  | nil => simp [rewriteValues]
  | cons kv rest ih =>
    obtain ⟨k, v⟩ := kv
    simp [rewriteValues, ih]

/-- Every step of the rewriter's loop either drops the head entry (an
`x-` key other than the preserved one) or keeps its key with some value. -/
theorem rewriteEntries_cons_shape (k : String) (v : Json)
    (rest : List (String × Json)) :
    (startsWithXDash k = true ∧ k ≠ "x-kubernetes-preserve-unknown-fields" ∧
      rewriteEntries ((k, v) :: rest) = rewriteEntries rest) ∨
    (∃ w, rewriteEntries ((k, v) :: rest) = (k, w) :: rewriteEntries rest) := by
  by_cases h1 : k = "x-kubernetes-preserve-unknown-fields"
  · refine Or.inr ⟨v, ?_⟩
    cases v <;> simp [rewriteEntries, h1]
  · by_cases h2 : startsWithXDash k
    · refine Or.inl ⟨h2, h1, ?_⟩
      cases v <;> simp [rewriteEntries, h1, h2]
    · refine Or.inr ?_
      cases v <;> simp only [rewriteEntries, if_neg h1, h2, Bool.false_eq_true,
        if_false] <;> repeat' split
      all_goals exact ⟨_, rfl⟩

/-- C10 helper: the kept keys form a sublist of the input keys. -/
theorem rewriteEntries_keys_sublist (kvs : List (String × Json)) :
    ((rewriteEntries kvs).map Prod.fst).Sublist (kvs.map Prod.fst) := by
  induction kvs with
  | nil => simp [rewriteEntries]
  | cons kv rest ih =>
    obtain ⟨k, v⟩ := kv
    rcases rewriteEntries_cons_shape k v rest with ⟨_, _, heq⟩ | ⟨w, heq⟩
    · rw [heq]
      exact ih.trans (List.sublist_cons_self k (rest.map Prod.fst))
    · rw [heq]
      simpa using List.Sublist.cons₂ k ih

/-- C10: for every node, the rewriter's output object keys are a sublist
of the input object keys — no key is introduced that was not in the
input, and the kept keys appear in the input's relative order. -/
theorem rewriter_keys_subset_ordered (j : Json) :
    (objKeys (openapi_to_jsonschema j)).Sublist (objKeys j) := by
  cases j with
  | obj kvs =>
    simpa [openapi_to_jsonschema, objKeys] using rewriteEntries_keys_sublist kvs
  | null => simp [openapi_to_jsonschema, objKeys]
  | bool b => simp [openapi_to_jsonschema, objKeys]
  | num n => simp [openapi_to_jsonschema, objKeys]
  | str s => simp [openapi_to_jsonschema, objKeys]
  | arr xs => simp [openapi_to_jsonschema, objKeys]

/-- C8: on the node `{"x-foo": 1,
"x-kubernetes-preserve-unknown-fields": true, "type": "object"}` the
rewriter returns exactly `{"x-kubernetes-preserve-unknown-fields": true,
"type": "object"}`. -/
theorem rewriter_concrete_example :
    openapi_to_jsonschema (.obj [("x-foo", .num 1),
      ("x-kubernetes-preserve-unknown-fields", .bool true),
      ("type", .str "object")]) =
    .obj [("x-kubernetes-preserve-unknown-fields", .bool true),
      ("type", .str "object")] := rfl

/-! ## Extension-key invariant of the rewriter (C2) -/

theorem keysOk_all (j : Json) :
    nodeKeysOk (openapi_to_jsonschema j) = true ∧
    (∀ kvs, j = .obj kvs →
      entriesKeysOk (rewriteEntries kvs) = true ∧
      valuesKeysOk (rewriteValues kvs) = true) ∧
    (∀ xs, j = .arr xs → listKeysOk (rewriteList xs) = true) := by
  refine jsonRecAll
    (P := fun j => nodeKeysOk (openapi_to_jsonschema j) = true ∧
      (∀ kvs, j = .obj kvs →
        entriesKeysOk (rewriteEntries kvs) = true ∧
        valuesKeysOk (rewriteValues kvs) = true) ∧
      (∀ xs, j = .arr xs → listKeysOk (rewriteList xs) = true))
    (Q := fun kvs => entriesKeysOk (rewriteEntries kvs) = true ∧
      valuesKeysOk (rewriteValues kvs) = true)
    (R := fun xs => listKeysOk (rewriteList xs) = true)
    ⟨?_, ?_, ?_⟩ (fun b => ⟨?_, ?_, ?_⟩) (fun n => ⟨?_, ?_, ?_⟩)
    (fun s => ⟨?_, ?_, ?_⟩) (fun xs hR => ⟨?_, ?_, ?_⟩)
    (fun kvs hQ => ⟨?_, ?_, ?_⟩) ⟨?_, ?_⟩ (fun k v rest hP hQ => ⟨?_, ?_⟩)
    ?_ (fun x rest hP hR => ?_) j
  · simp [openapi_to_jsonschema, nodeKeysOk]
  · exact fun kvs h => Json.noConfusion h
  · exact fun xs h => Json.noConfusion h
  · simp [openapi_to_jsonschema, nodeKeysOk]
  · exact fun kvs h => Json.noConfusion h
  · exact fun xs h => Json.noConfusion h
  · simp [openapi_to_jsonschema, nodeKeysOk]
  · exact fun kvs h => Json.noConfusion h
  · exact fun xs h => Json.noConfusion h
  · simp [openapi_to_jsonschema, nodeKeysOk]
  · exact fun kvs h => Json.noConfusion h
  · exact fun xs h => Json.noConfusion h
  · simp [openapi_to_jsonschema, nodeKeysOk]
  · exact fun kvs h => Json.noConfusion h
  · intro xs' h
    injection h with h2
    subst h2
    exact hR
  · simpa [openapi_to_jsonschema, nodeKeysOk] using hQ.1
  · intro kvs' h
    injection h with h2
    subst h2
    exact hQ
  · exact fun xs h => Json.noConfusion h
  · simp [rewriteEntries, entriesKeysOk]
  · simp [rewriteValues, valuesKeysOk]
  · by_cases h1 : k = "x-kubernetes-preserve-unknown-fields"
    · subst h1
      cases v <;> simp [rewriteEntries, entriesKeysOk, childKeysOk, hQ.1]
    · by_cases h2 : startsWithXDash k
      · cases v <;> simp [rewriteEntries, h1, h2, hQ.1]
      · by_cases h3 : k = "properties"
        · subst h3
          cases v <;>
            first
            | simp [rewriteEntries, entriesKeysOk, childKeysOk,
                show startsWithXDash "properties" = false from rfl,
                hQ.1, (hP.2.1 _ rfl).2]
            | simp [rewriteEntries, entriesKeysOk, childKeysOk,
                show startsWithXDash "properties" = false from rfl, hQ.1]
        · by_cases h4 : k = "additionalProperties"
          · subst h4
            cases v <;>
              first
              | simp [rewriteEntries, entriesKeysOk, childKeysOk,
                  openapi_to_jsonschema,
                  show startsWithXDash "additionalProperties" = false from rfl,
                  hQ.1, (hP.2.1 _ rfl).1]
              | simp [rewriteEntries, entriesKeysOk, childKeysOk,
                  show startsWithXDash "additionalProperties" = false from rfl,
                  hQ.1]
          · by_cases h5 : k = "items"
            · subst h5
              cases v <;>
                first
                | simp [rewriteEntries, entriesKeysOk, childKeysOk,
                    openapi_to_jsonschema,
                    show startsWithXDash "items" = false from rfl,
                    hQ.1, (hP.2.1 _ rfl).1]
                | simp [rewriteEntries, entriesKeysOk, childKeysOk,
                    show startsWithXDash "items" = false from rfl, hQ.1]
            · by_cases h6 : k = "oneOf" ∨ k = "anyOf" ∨ k = "allOf"
              · rcases h6 with h6 | h6 | h6 <;> subst h6 <;> cases v <;>
                  first
                  | simp [rewriteEntries, entriesKeysOk, childKeysOk,
                      show startsWithXDash "oneOf" = false from rfl,
                      show startsWithXDash "anyOf" = false from rfl,
                      show startsWithXDash "allOf" = false from rfl,
                      hQ.1, hP.2.2 _ rfl]
                  | simp [rewriteEntries, entriesKeysOk, childKeysOk,
                      show startsWithXDash "oneOf" = false from rfl,
                      show startsWithXDash "anyOf" = false from rfl,
                      show startsWithXDash "allOf" = false from rfl,
                      hQ.1]
              · cases v <;>
                  simp [rewriteEntries, entriesKeysOk, childKeysOk,
                    h1, h2, h3, h4, h5, h6, hQ.1]
  · simp [rewriteValues, valuesKeysOk, hP.1, hQ.2]
  · simp [rewriteList, listKeysOk]
  · simp [rewriteList, listKeysOk, hP.1, hR]

/-- The preserved key's value survives the rewrite unchanged (first
occurrence, i.e. dict semantics). -/
theorem lookup_preserved_rewrite (kvs : List (String × Json)) :
    lookupKey (rewriteEntries kvs) "x-kubernetes-preserve-unknown-fields" =
    lookupKey kvs "x-kubernetes-preserve-unknown-fields" := by
  induction kvs with
  | nil => simp [rewriteEntries]
  | cons kv rest ih =>
    obtain ⟨k, v⟩ := kv
    by_cases h1 : k = "x-kubernetes-preserve-unknown-fields"
    · subst h1
      cases v <;> simp [rewriteEntries, lookupKey]
    · rcases rewriteEntries_cons_shape k v rest with ⟨hsw, hne, heq⟩ | ⟨w, heq⟩
      · rw [heq]
        simp [lookupKey, h1, ih]
      · rw [heq]
        simp [lookupKey, h1, ih]

/-- C2 counterexample: on `{"default": {"x-foo": 1}}` the rewriter copies
the value of the non-keyword key `default` verbatim, so the dropped-class
key `x-foo` survives at depth 1 in the output. -/
theorem rewriter_xkey_survives_at_depth :
    openapi_to_jsonschema (.obj [("default", .obj [("x-foo", .num 1)])]) =
      .obj [("default", .obj [("x-foo", .num 1)])] ∧
    hasDroppedXKey (openapi_to_jsonschema
      (.obj [("default", .obj [("x-foo", .num 1)])])) = true := ⟨rfl, rfl⟩

/-- C2 (amended): at every node the rewriter visits — the root and the
nodes reached through `properties` values, dict-valued
`additionalProperties`/`items` and list-valued `oneOf`/`anyOf`/`allOf` —
no key beginning with `x-` other than
`x-kubernetes-preserve-unknown-fields` survives, and the preserved key
keeps its value verbatim; values of other keys are copied as-is and may
retain `x-`-prefixed keys at deeper levels. -/
theorem rewriter_drops_xkeys_on_visited_nodes :
    (∀ j, nodeKeysOk (openapi_to_jsonschema j) = true) ∧
    (∀ kvs, lookupKey (rewriteEntries kvs) "x-kubernetes-preserve-unknown-fields" =
      lookupKey kvs "x-kubernetes-preserve-unknown-fields") :=
  ⟨fun j => (keysOk_all j).1, lookup_preserved_rewrite⟩

/-! ## Idempotence of the rewriter (C3) -/

theorem rewrite_idem_all (j : Json) :
    openapi_to_jsonschema (openapi_to_jsonschema j) = openapi_to_jsonschema j ∧
    (∀ kvs, j = .obj kvs →
      rewriteEntries (rewriteEntries kvs) = rewriteEntries kvs ∧
      rewriteValues (rewriteValues kvs) = rewriteValues kvs) ∧
    (∀ xs, j = .arr xs → rewriteList (rewriteList xs) = rewriteList xs) := by
  refine jsonRecAll
    (P := fun j => openapi_to_jsonschema (openapi_to_jsonschema j) = openapi_to_jsonschema j ∧
      (∀ kvs, j = .obj kvs →
        rewriteEntries (rewriteEntries kvs) = rewriteEntries kvs ∧
        rewriteValues (rewriteValues kvs) = rewriteValues kvs) ∧
      (∀ xs, j = .arr xs → rewriteList (rewriteList xs) = rewriteList xs))
    (Q := fun kvs => rewriteEntries (rewriteEntries kvs) = rewriteEntries kvs ∧
      rewriteValues (rewriteValues kvs) = rewriteValues kvs)
    (R := fun xs => rewriteList (rewriteList xs) = rewriteList xs)
    ⟨?_, ?_, ?_⟩ (fun b => ⟨?_, ?_, ?_⟩) (fun n => ⟨?_, ?_, ?_⟩)
    (fun s => ⟨?_, ?_, ?_⟩) (fun xs hR => ⟨?_, ?_, ?_⟩)
    (fun kvs hQ => ⟨?_, ?_, ?_⟩) ⟨?_, ?_⟩ (fun k v rest hP hQ => ⟨?_, ?_⟩)
    ?_ (fun x rest hP hR => ?_) j
  · simp [openapi_to_jsonschema]
  · exact fun kvs h => Json.noConfusion h
  · exact fun xs h => Json.noConfusion h
  · simp [openapi_to_jsonschema]
  · exact fun kvs h => Json.noConfusion h
  · exact fun xs h => Json.noConfusion h
  · simp [openapi_to_jsonschema]
  · exact fun kvs h => Json.noConfusion h
  · exact fun xs h => Json.noConfusion h
  · simp [openapi_to_jsonschema]
  · exact fun kvs h => Json.noConfusion h
  · exact fun xs h => Json.noConfusion h
  · simp [openapi_to_jsonschema]
  · exact fun kvs h => Json.noConfusion h
  · intro xs' h
    injection h with h2
    subst h2
    exact hR
  · simpa [openapi_to_jsonschema] using hQ.1
  · intro kvs' h
    injection h with h2
    subst h2
    exact hQ
  · exact fun xs h => Json.noConfusion h
  · simp [rewriteEntries]
  · simp [rewriteValues]
  · by_cases h1 : k = "x-kubernetes-preserve-unknown-fields"
    · subst h1
      cases v <;> simp [rewriteEntries, hQ.1]
    · by_cases h2 : startsWithXDash k
      · cases v <;> simp [rewriteEntries, h1, h2, hQ.1]
      · by_cases h3 : k = "properties"
        · subst h3
          cases v <;>
            first
            | simp [rewriteEntries,
                show startsWithXDash "properties" = false from rfl,
                hQ.1, (hP.2.1 _ rfl).2]
            | simp [rewriteEntries,
                show startsWithXDash "properties" = false from rfl, hQ.1]
        · by_cases h4 : k = "additionalProperties"
          · subst h4
            cases v <;>
              first
              | simp [rewriteEntries, openapi_to_jsonschema,
                  show startsWithXDash "additionalProperties" = false from rfl,
                  hQ.1, (hP.2.1 _ rfl).1]
              | simp [rewriteEntries,
                  show startsWithXDash "additionalProperties" = false from rfl,
                  hQ.1]
          · by_cases h5 : k = "items"
            · subst h5
              cases v <;>
                first
                | simp [rewriteEntries, openapi_to_jsonschema,
                    show startsWithXDash "items" = false from rfl,
                    hQ.1, (hP.2.1 _ rfl).1]
                | simp [rewriteEntries,
                    show startsWithXDash "items" = false from rfl, hQ.1]
            · by_cases h6 : k = "oneOf" ∨ k = "anyOf" ∨ k = "allOf"
              · rcases h6 with h6 | h6 | h6 <;> subst h6 <;> cases v <;>
                  first
                  | simp [rewriteEntries,
                      show startsWithXDash "oneOf" = false from rfl,
                      show startsWithXDash "anyOf" = false from rfl,
                      show startsWithXDash "allOf" = false from rfl,
                      hQ.1, hP.2.2 _ rfl]
                  | simp [rewriteEntries,
                      show startsWithXDash "oneOf" = false from rfl,
                      show startsWithXDash "anyOf" = false from rfl,
                      show startsWithXDash "allOf" = false from rfl,
                      hQ.1]
              · cases v <;>
                  simp [rewriteEntries, h1, h2, h3, h4, h5, h6, hQ.1]
  · simp [rewriteValues, hP.1, hQ.2]
  · simp [rewriteList]
  · simp [rewriteList, hP.1, hR]

/-- C3: the rewriter is idempotent — applying `openapi_to_jsonschema`
twice yields the same tree as applying it once, for every input tree. -/
theorem rewriter_idempotent (j : Json) :
    openapi_to_jsonschema (openapi_to_jsonschema j) = openapi_to_jsonschema j :=
  (rewrite_idem_all j).1

/-! ## Composition keywords (C7) -/

theorem lookup_comp_rewrite (kvs : List (String × Json)) (k : String)
    (l : List Json) (hk : k = "oneOf" ∨ k = "anyOf" ∨ k = "allOf")
    (h : lookupKey kvs k = some (.arr l)) :
    lookupKey (rewriteEntries kvs) k = some (.arr (rewriteList l)) := by
  induction kvs with
  | nil => simp [lookupKey] at h
  | cons kv rest ih =>
    obtain ⟨k', v⟩ := kv
    by_cases hk' : k' = k
    · subst hk'
      rw [lookupKey, if_pos rfl] at h
      injection h with h2
      subst h2
      rcases hk with hk | hk | hk <;> subst hk <;>
        simp [rewriteEntries, lookupKey,
          show startsWithXDash "oneOf" = false from rfl,
          show startsWithXDash "anyOf" = false from rfl,
          show startsWithXDash "allOf" = false from rfl]
    · rw [lookupKey, if_neg hk'] at h
      rcases rewriteEntries_cons_shape k' v rest with ⟨hsw, hne, heq⟩ | ⟨w, heq⟩ <;>
        rw [heq] <;> simp [lookupKey, hk', ih h]

/-- C7: when an object node maps `oneOf`, `anyOf` or `allOf` to a list of
N elements, the rewritten node maps the same key to the list of the N
rewritten elements, in the same order. -/
theorem rewriter_maps_composition_lists (kvs : List (String × Json))
    (k : String) (l : List Json)
    (hk : k = "oneOf" ∨ k = "anyOf" ∨ k = "allOf")
    (h : objLookup (.obj kvs) k = some (.arr l)) :
    objLookup (openapi_to_jsonschema (.obj kvs)) k =
      some (.arr (rewriteList l)) ∧
    rewriteList l = l.map openapi_to_jsonschema ∧
    (rewriteList l).length = l.length ∧
    ∀ i : Nat, (rewriteList l)[i]? =
      (l[i]?).map openapi_to_jsonschema := by
  refine ⟨?_, rewriteList_eq_map l, ?_, ?_⟩
  · simpa [openapi_to_jsonschema, objLookup] using
      lookup_comp_rewrite kvs k l hk (by simpa [objLookup] using h)
  · simp [rewriteList_eq_map]
  · intro i
    simp [rewriteList_eq_map]

/-- C7 witness: a concrete `anyOf` node with two elements. -/
theorem rewriter_maps_composition_lists_witness :
    objLookup (openapi_to_jsonschema (.obj [("anyOf",
      .arr [.obj [("x-foo", .num 1), ("type", .str "string")], .null])]))
      "anyOf" =
      some (.arr [.obj [("type", .str "string")], .null]) := by
  have h := rewriter_maps_composition_lists
    [("anyOf", .arr [.obj [("x-foo", .num 1), ("type", .str "string")], .null])]
    "anyOf" [.obj [("x-foo", .num 1), ("type", .str "string")], .null]
    (Or.inr (Or.inl rfl)) rfl
  exact h.1

/-! ## Empty validation-schema bodies (C9) -/

/-- C9: a version entry whose `schema.openAPIV3Schema` body is present
but an empty mapping is discarded exactly as when the `schema` block is
absent: both produce no entry and no error. -/
theorem empty_schema_body_skipped :
    (∀ (g k : Json) (vkvs sbkvs : List (String × Json)),
      lookupKey vkvs "schema" = some (.obj sbkvs) →
      lookupKey sbkvs "openAPIV3Schema" = some (.obj []) →
      processVersion g k (.obj vkvs) = .ok []) ∧
    (∀ (g k : Json) (vkvs : List (String × Json)),
      lookupKey vkvs "schema" = none →
      processVersion g k (.obj vkvs) = .ok []) := by
  constructor
  · intro g k vkvs sbkvs h1 h2
    simp [processVersion, dictGetD, h1, h2, Json.truthy,
      bind, Except.bind, pure, Except.pure]
  · intro g k vkvs h1
    simp [processVersion, dictGetD, h1, Json.truthy, lookupKey,
      bind, Except.bind, pure, Except.pure]

/-- C9 witness: concrete version entries, with and without the `schema`
block. -/
theorem empty_schema_body_skipped_witness :
    processVersion (.str "g") (.str "K")
      (.obj [("name", .str "v1"),
        ("schema", .obj [("openAPIV3Schema", .obj [])])]) = .ok [] ∧
    processVersion (.str "g") (.str "K")
      (.obj [("name", .str "v1")]) = .ok [] :=
  ⟨empty_schema_body_skipped.1 (.str "g") (.str "K")
      [("name", .str "v1"), ("schema", .obj [("openAPIV3Schema", .obj [])])]
      [("openAPIV3Schema", .obj [])] rfl rfl,
    empty_schema_body_skipped.2 (.str "g") (.str "K")
      [("name", .str "v1")] rfl⟩

/-! ## Root assembly of the artifact (C1) -/

/-- C1 counterexample: for the concrete CRD document `c1doc`, whose
rewritten root schema has no `type` key, the assembled artifact does
contain a `type` key (defaulted to `"object"`), contradicting the claim
that `type` is present in the artifact iff present in the rewritten root. -/
theorem artifact_type_key_defaulted :
    (extract_schemas [c1doc]).map (fun es => es.map fun e =>
      (hasKey e.schema "type", objLookup e.schema "type")) =
      .ok [(true, some (.str "object"))] ∧
    hasKey (openapi_to_jsonschema c1raw) "type" = false := ⟨rfl, rfl⟩

/-- C1 (amended): for every rewritten root object, the assembled artifact
contains `properties` and `required` iff the rewritten root does (values
copied unchanged), while `type` is always present: copied from the
rewritten root when present and defaulted to `"object"` otherwise. -/
theorem artifact_root_assembly_keys (g k v : Json)
    (kvs : List (String × Json)) :
    (assembleSchema g k v (.obj kvs)).map (fun out =>
      (hasKey out "properties", objLookup out "properties",
        hasKey out "required", objLookup out "required",
        hasKey out "type", objLookup out "type")) =
    .ok (hasKey (.obj kvs) "properties", objLookup (.obj kvs) "properties",
      hasKey (.obj kvs) "required", objLookup (.obj kvs) "required",
      true, some ((objLookup (.obj kvs) "type").getD (.str "object"))) := by
  rcases h1 : lookupKey kvs "properties" with _ | p <;>
    rcases h2 : lookupKey kvs "required" with _ | r <;>
      rcases h3 : lookupKey kvs "type" with _ | t <;>
        simp [assembleSchema, pyContains, pySubscript, setKey, hasKey, objLookup,
          lookupKey, h1, h2, h3, bind, Except.bind, pure, Except.pure, Except.map]

/-! ## Extractor skip rules and ordering (C4) -/

/-- C4 counterexample: a truthy non-mapping document (here the list
`[1]`) makes the extractor raise `AttributeError` on `doc.get("kind")`
instead of being skipped silently. -/
theorem nonmapping_document_raises :
    extract_schemas [.arr [.num 1]] = .error "AttributeError: get" := rfl

/-- C4 (amended): falsy documents are skipped; mapping documents whose
`kind` tag is not the string `CustomResourceDefinition` are skipped;
CRD-tagged mapping documents whose spec lacks a truthy `group` or a
truthy `names.kind` are skipped; retained documents contribute their
entries in document order, concatenated with no deduplication.  (A truthy
non-mapping document, by contrast, raises an error — see the
counterexample.) -/
theorem extractor_skips_and_preserves_order :
    (∀ (d : Json) (rest : List Json), d.truthy = false →
      extract_schemas (d :: rest) = extract_schemas rest) ∧
    (∀ kvs, kindTagIsCRD (lookupKey kvs "kind") = false →
      processDoc (.obj kvs) = .ok []) ∧
    (∀ (kvs skvs nkvs : List (String × Json)),
      lookupKey kvs "kind" = some (.str "CustomResourceDefinition") →
      (lookupKey kvs "spec").getD (.obj []) = .obj skvs →
      (lookupKey skvs "names").getD (.obj []) = .obj nkvs →
      (((lookupKey skvs "group").getD (.str "")).truthy = false ∨
        ((lookupKey nkvs "kind").getD (.str "")).truthy = false) →
      processDoc (.obj kvs) = .ok []) ∧
    (∀ (d : Json) (rest : List Json) es rs,
      processDoc d = .ok es → extract_schemas rest = .ok rs →
      extract_schemas (d :: rest) = .ok (es ++ rs)) := by
  refine ⟨?_, ?_, ?_, ?_⟩
  · intro d rest h
    simp only [extract_schemas, processDoc, h, Bool.not_false, if_true,
      bind, Except.bind, pure, Except.pure]
    cases hr : extract_schemas rest <;> simp
  · intro kvs h
    by_cases ht : (Json.obj kvs).truthy = true
    · rcases hk : lookupKey kvs "kind" with _ | t
      · simp [processDoc, dictGetD, ht, hk, bind, Except.bind, pure, Except.pure]
      · cases t with
        | str s =>
          rw [hk] at h
          simp only [kindTagIsCRD, decide_eq_false_iff_not] at h
          simp [processDoc, dictGetD, ht, hk, h, bind, Except.bind, pure, Except.pure]
        | null => simp [processDoc, dictGetD, ht, hk, bind, Except.bind, pure, Except.pure]
        | bool b => simp [processDoc, dictGetD, ht, hk, bind, Except.bind, pure, Except.pure]
        | num n => simp [processDoc, dictGetD, ht, hk, bind, Except.bind, pure, Except.pure]
        | arr xs => simp [processDoc, dictGetD, ht, hk, bind, Except.bind, pure, Except.pure]
        | obj okvs => simp [processDoc, dictGetD, ht, hk, bind, Except.bind, pure, Except.pure]
    · have ht' : (Json.obj kvs).truthy = false := by
        cases hval : (Json.obj kvs).truthy
        · rfl
        · exact absurd hval ht
      simp [processDoc, ht', bind, Except.bind, pure, Except.pure]
  · intro kvs skvs nkvs hk hs hn hor
    have ht : (Json.obj kvs).truthy = true := by
      cases kvs with
      | nil => simp [lookupKey] at hk
      | cons a t => simp [Json.truthy]
    rcases hor with hg | hknd
    · simp [processDoc, dictGetD, ht, hk, hs, hn, hg,
        bind, Except.bind, pure, Except.pure]
    · simp [processDoc, dictGetD, ht, hk, hs, hn, hknd,
        bind, Except.bind, pure, Except.pure]
  · intro d rest es rs h1 h2
    simp [extract_schemas, h1, h2, bind, Except.bind, pure, Except.pure]

/-- C4 witness: the four amended behaviors at concrete inputs — a falsy
document, a non-CRD mapping, a CRD missing its group, and the
concatenation of a retained document's entries. -/
theorem extractor_skips_and_preserves_order_witness :
    extract_schemas [Json.null] = extract_schemas [] ∧
    processDoc (.obj [("kind", .str "Deployment")]) = .ok [] ∧
    processDoc (.obj [("kind", .str "CustomResourceDefinition"),
      ("spec", .obj [("names", .obj [("kind", .str "K")])])]) = .ok [] ∧
    extract_schemas [c1doc] = .ok ([c1entry] ++ []) :=
  ⟨extractor_skips_and_preserves_order.1 Json.null [] rfl,
    extractor_skips_and_preserves_order.2.1 [("kind", .str "Deployment")] rfl,
    extractor_skips_and_preserves_order.2.2.1
      [("kind", .str "CustomResourceDefinition"),
        ("spec", .obj [("names", .obj [("kind", .str "K")])])]
      [("names", .obj [("kind", .str "K")])] [("kind", .str "K")]
      rfl rfl rfl (Or.inl rfl),
    extractor_skips_and_preserves_order.2.2.2 c1doc [] [c1entry] [] rfl rfl⟩

/-! ## Exit behavior of the sync run (C5) -/

/-- C5: a run whose input yields zero extracted schemas exits non-zero
with the filesystem untouched and no reported count; a run that extracts
at least one schema and hits no write error exits zero and reports the
total artifact count. -/
theorem sync_exit_behavior :
    (∀ (docs : List Json) (outDir : String) (fs : FS),
      extract_schemas docs = .ok [] →
      sync docs outDir fs = { exitCode := 1, fs := fs, reported := none }) ∧
    (∀ (docs : List Json) (outDir : String) (fs : FS) ss,
      extract_schemas docs = .ok ss → ss ≠ [] →
      (write_schemas ss outDir fs).2 = none →
      sync docs outDir fs =
        { exitCode := 0, fs := (write_schemas ss outDir fs).1,
          reported := some ss.length }) := by
  constructor
  · intro docs outDir fs h
    simp [sync, h]
  · intro docs outDir fs ss h hne hw
    rcases hws : write_schemas ss outDir fs with ⟨fs2, err⟩
    rw [hws] at hw
    simp only at hw
    subst hw
    simp [sync, h, hne, hws, List.isEmpty_iff]

/-- C5 witness: the empty stream exits 1 without writing; the one-CRD
stream exits 0 reporting one artifact. -/
theorem sync_exit_behavior_witness :
    sync [] "schemas" [] = { exitCode := 1, fs := [], reported := none } ∧
    sync [c1doc] "schemas" [] =
      { exitCode := 0, fs := (write_schemas [c1entry] "schemas" []).1,
        reported := some 1 } :=
  ⟨sync_exit_behavior.1 [] "schemas" [] rfl,
    sync_exit_behavior.2 [c1doc] "schemas" [] [c1entry] rfl (by simp) rfl⟩

/-! ## Layout writer (C6) -/


theorem processVersion_kind_lower (g k ve : Json) (es : List SchemaEntry)
    (h : processVersion g k ve = .ok es) :
    ∀ e ∈ es, ∃ s0, e.kind = lowerStr s0 := by
  intro e hm
  cases ve with
  | obj vkvs =>
    simp only [processVersion, dictGetD, bind, Except.bind] at h
    split at h
    · exact Except.noConfusion h
    · split at h
      · simp only [pure, Except.pure, Except.ok.injEq] at h
        subst h
        cases hm
      · split at h
        · exact Except.noConfusion h
        · split at h
          · exact Except.noConfusion h
          · rename_i kl hkl
            simp only [pure, Except.pure, Except.ok.injEq] at h
            subst h
            simp only [List.mem_singleton] at hm
            subst hm
            cases k with
            | str s =>
              simp only [pyLower, Except.ok.injEq] at hkl
              exact ⟨s, by simp [← hkl]⟩
            | null => simp [pyLower] at hkl
            | bool b => simp [pyLower] at hkl
            | num n => simp [pyLower] at hkl
            | arr xs => simp [pyLower] at hkl
            | obj kvs2 => simp [pyLower] at hkl
  | null => simp [processVersion, dictGetD, bind, Except.bind] at h
  | bool b => simp [processVersion, dictGetD, bind, Except.bind] at h
  | num n => simp [processVersion, dictGetD, bind, Except.bind] at h
  | str s => simp [processVersion, dictGetD, bind, Except.bind] at h
  | arr xs => simp [processVersion, dictGetD, bind, Except.bind] at h

theorem processVersions_kind_lower (g k : Json) (vs : List Json)
    (es : List SchemaEntry) (h : processVersions g k vs = .ok es) :
    ∀ e ∈ es, ∃ s0, e.kind = lowerStr s0 := by
  induction vs generalizing es with
  | nil =>
    simp only [processVersions, Except.ok.injEq] at h
    subst h
    intro e hm
    cases hm
  | cons v rest ih =>
    intro e hm
    simp only [processVersions, bind, Except.bind] at h
    split at h
    · exact Except.noConfusion h
    · rename_i es1 h1
      split at h
      · exact Except.noConfusion h
      · rename_i es2 h2
        simp only [pure, Except.pure, Except.ok.injEq] at h
        subst h
        rcases List.mem_append.1 hm with hm | hm
        · exact processVersion_kind_lower g k v es1 h1 e hm
        · exact ih es2 h2 e hm

theorem processDoc_kind_lower (d : Json) (es : List SchemaEntry)
    (h : processDoc d = .ok es) :
    ∀ e ∈ es, ∃ s0, e.kind = lowerStr s0 := by
  intro e hm
  simp only [processDoc, dictGetD, pyIter, bind, Except.bind, Json.truthy] at h
  repeat' split at h
  all_goals
    first
    | exact Except.noConfusion h
    | (simp only [pure, Except.pure, Except.ok.injEq] at h; subst h; cases hm)
    | exact processVersions_kind_lower _ _ _ _ h e hm

theorem extract_schemas_kind_lower (docs : List Json) (ss : List SchemaEntry)
    (h : extract_schemas docs = .ok ss) :
    ∀ e ∈ ss, ∃ s0, e.kind = lowerStr s0 := by
  induction docs generalizing ss with
  | nil =>
    simp only [extract_schemas, Except.ok.injEq] at h
    subst h
    intro e hm
    cases hm
  | cons d rest ih =>
    intro e hm
    simp only [extract_schemas, bind, Except.bind] at h
    split at h
    · exact Except.noConfusion h
    · rename_i es1 h1
      split at h
      · exact Except.noConfusion h
      · rename_i es2 h2
        simp only [pure, Except.pure, Except.ok.injEq] at h
        subst h
        rcases List.mem_append.1 hm with hm | hm
        · exact processDoc_kind_lower d es1 h1 e hm
        · exact ih es2 h2 e hm

/-- C6: each entry handed to the layout writer produces exactly one write,
at `<output-root>/<group>/<kind>_<version>.json`; the written content is
the pretty-printed schema plus a trailing newline; a write to an existing
path overwrites it (last-write-wins, no error); and every entry the
extractor produces carries an already-lowercased kind. -/
theorem writer_one_file_per_entry :
    (∀ (e : SchemaEntry) (g : String) (rest : List SchemaEntry)
      (outDir : String) (fs : FS), e.group = .str g →
      write_schemas (e :: rest) outDir fs =
        write_schemas rest outDir
          (fsWrite fs (entryPath outDir g e) (entryContent e))) ∧
    (∀ e : SchemaEntry, entryContent e = dumps 0 e.schema ++ "\n") ∧
    (∀ (fs : FS) (p c : String), fsLookup (fsWrite fs p c) p = some c) ∧
    (∀ (docs : List Json) ss, extract_schemas docs = .ok ss →
      ∀ e ∈ ss, ∃ s0, e.kind = lowerStr s0) := by
  refine ⟨?_, fun e => rfl, ?_, extract_schemas_kind_lower⟩
  · intro e g rest outDir fs hg
    obtain ⟨gr, kd, vr, sc⟩ := e
    simp only at hg
    subst hg
    simp [write_schemas]
  · intro fs p c
    induction fs with
    | nil => simp [fsWrite, fsLookup]
    | cons pc rest ih =>
      obtain ⟨pp, cc⟩ := pc
      by_cases hp : pp = p
      · subst hp
        simp [fsWrite, fsLookup]
      · simp [fsWrite, fsLookup, hp, ih]

/-- C6 witness: the single-entry write, an overwrite of an existing path,
and the lowercased kind of the extracted entry, at concrete inputs. -/
theorem writer_one_file_per_entry_witness :
    write_schemas [c1entry] "schemas" [] =
      write_schemas [] "schemas"
        (fsWrite [] (entryPath "schemas" "example.io" c1entry)
          (entryContent c1entry)) ∧
    fsLookup (fsWrite [("schemas/example.io/widget_v1.json", "old")]
        "schemas/example.io/widget_v1.json" "new")
      "schemas/example.io/widget_v1.json" = some "new" ∧
    (∃ s0, c1entry.kind = lowerStr s0) :=
  ⟨writer_one_file_per_entry.1 c1entry "example.io" [] "schemas" [] rfl,
    writer_one_file_per_entry.2.2.1
      [("schemas/example.io/widget_v1.json", "old")]
      "schemas/example.io/widget_v1.json" "new",
    writer_one_file_per_entry.2.2.2 [c1doc] [c1entry] rfl c1entry
      (by simp)⟩
